import Mathlib

/-!
Verification development for the topology-resolution and secure-transport
layer of cql-proxy (`proxycore/resultset.go`): typed row decoding, the
`Endpoint` abstraction with its direct (DNS) and cloud (SNI-proxied)
resolution strategies, and the custom TLS trust model.

Go machine details are embedded as follows: byte slices become `List Nat`,
maps become association lists with Go assignment semantics (insert
replaces), fallible calls return `Except`, a Go panic is an explicit
`GoError.GoPanic` value, and the external collaborators (wire-value
decoding, DNS, HTTP, X.509 parsing and verification, the secure-connect
bundle) are modelled at their interface boundary.
-/

deriving instance DecidableEq for Except

namespace CqlProxy

/-- Error values the embedded code can produce.  `ColumnNameNotFound`
mirrors the sentinel error of the same name; `DecodeError` stands for a
failed wire-value decode; `GoPanic` records a Go runtime panic (index out
of range, failed type assertion). -/
inductive GoError where
  | ColumnNameNotFound
  | DecodeError (msg : String)
  | GoPanic (msg : String)
deriving DecidableEq

/-- Decoded CQL values as produced by the row decoder: an `inet` address
(4 or 16 raw bytes), a `uuid` (16 raw bytes), or the decoded null. -/
inductive CqlValue where
  | ip (bytes : List Nat)
  | uuid (bytes : List Nat)
  | null
deriving DecidableEq

/-- Declared wire types of result columns, restricted to the types the
topology queries consume. -/
inductive DataType where
  | inet
  | uuid
  | other
deriving DecidableEq

/-- A raw column value of a wire row: `none` is a null column. -/
def RawValue : Type := Option (List Nat)

instance : DecidableEq RawValue := by
  unfold RawValue
  infer_instance

/-- Column metadata: the column's name and declared wire type. -/
structure ColumnMetadata where
  Name : String
  typ : DataType
deriving DecidableEq

/-- The metadata block of a rows result. -/
structure RowsMetadata where
  Columns : List ColumnMetadata
deriving DecidableEq

/-- A decoded rows result: column metadata plus the raw data rows. -/
structure RowsResult where
  Metadata : RowsMetadata
  Data : List (List RawValue)
deriving DecidableEq

/-- Go map assignment `m[k] = v`: replaces the binding if the key is
present, otherwise appends a new one. -/
def goMapInsert (m : List (String × Nat)) (k : String) (v : Nat) :
    List (String × Nat) :=
  match m with
  | [] => [(k, v)]
  | (k', v') :: rest =>
    if k' = k then (k, v) :: rest else (k', v') :: goMapInsert rest k v

/-- Go map lookup `m[k]`. -/
def goMapLookup (m : List (String × Nat)) (k : String) : Option Nat :=
  match m with
  | [] => none
  | (k', v') :: rest => if k' = k then some v' else goMapLookup rest k

/-- The index-building loop of `NewResultSet`:
`for i, column := range rows.Metadata.Columns { columnIndexes[column.Name] = i }`. -/
def buildColumnIndexes :
    List ColumnMetadata → Nat → List (String × Nat) → List (String × Nat)
  | [], _, m => m
  | c :: cs, i, m => buildColumnIndexes cs (i + 1) (goMapInsert m c.Name i)

/-- `ResultSet` holds the name→position index, the wrapped result and the
protocol version in effect. -/
structure ResultSet where
  columnIndexes : List (String × Nat)
  result : RowsResult
  version : Nat
deriving DecidableEq

/-- A `Row` is a view: the owning result set plus one raw data row. -/
structure Row where
  resultSet : ResultSet
  row : List RawValue
deriving DecidableEq

/-- `NewResultSet` builds the name index in one pass over the column
metadata and wraps the result. -/
def NewResultSet (rows : RowsResult) (version : Nat) : ResultSet :=
  { columnIndexes := buildColumnIndexes rows.Metadata.Columns 0 []
    result := rows
    version := version }

/-- `ResultSet.Row i` returns the view onto data row `i` (Go panics when
`i` is out of range; the in-range case is all the callers use). -/
def ResultSet.RowAt (rs : ResultSet) (i : Nat) : Row :=
  { resultSet := rs, row := rs.result.Data.getD i [] }

/-- `ResultSet.RowCount`. -/
def ResultSet.RowCount (rs : ResultSet) : Nat :=
  rs.result.Data.length

/-- Modelled from the spec: `DecodeType` (the wire-value decoder, outside
this file's source) decodes one raw column value against its declared type
and the protocol version — a pure function of (raw bytes, type, version)
that fails with a `DecodeError` when the bytes are malformed for the
declared type.  An `inet` value must be 4 or 16 bytes, a `uuid` value 16
bytes; a null column decodes to the null value. -/
def DecodeType (t : DataType) (_version : Nat) (raw : RawValue) :
    Except GoError CqlValue :=
  match raw with
  | none => .ok .null
  | some bytes =>
    match t with
    | .inet =>
      if bytes.length = 4 ∨ bytes.length = 16 then .ok (.ip bytes)
      else .error (.DecodeError "cannot read inet")
    | .uuid =>
      if bytes.length = 16 then .ok (.uuid bytes)
      else .error (.DecodeError "cannot read uuid")
    | .other => .error (.DecodeError "unsupported type")

/-- `Row.ByPos`: decode column `i` of this row using the column's declared
type and the result set's protocol version (Go panics when `i` is out of
range of the metadata or the row). -/
def Row.ByPos (r : Row) (i : Nat) : Except GoError CqlValue :=
  match r.resultSet.result.Metadata.Columns[i]?, r.row[i]? with
  | some col, some raw => DecodeType col.typ r.resultSet.version raw
  | _, _ => .error (.GoPanic "index out of range")

/-- `Row.ByName`: look the name up in the index; absent names fail with
`ColumnNameNotFound`, otherwise delegate to `ByPos`. -/
def Row.ByName (r : Row) (n : String) : Except GoError CqlValue :=
  match goMapLookup r.resultSet.columnIndexes n with
  | none => .error .ColumnNameNotFound
  | some i => r.ByPos i

/-- `true` exactly when an `Except` value is a success. -/
def exceptIsOk {ε α : Type} : Except ε α → Bool
  | .ok _ => true
  | .error _ => false

/-! ### UUID string form

Model of `primitive.UUID.String()`: lowercase hex in the 8-4-4-4-12
grouping over the sixteen UUID bytes. -/

/-- The lowercase hex digit character for a value below 16. -/
def hexDigit (n : Nat) : Char := Nat.digitChar n

/-- The two hex characters of one byte. -/
def byteHexChars (b : Nat) : List Char :=
  [hexDigit (b / 16 % 16), hexDigit (b % 16)]

/-- Hex characters of a byte sequence. -/
def bytesHexChars (bs : List Nat) : List Char :=
  (bs.map byteHexChars).flatten

/-- The character sequence of the canonical 8-4-4-4-12 UUID form. -/
def uuidChars (u : List Nat) : List Char :=
  bytesHexChars (u.take 4) ++ '-' ::
    (bytesHexChars ((u.drop 4).take 2) ++ '-' ::
      (bytesHexChars ((u.drop 6).take 2) ++ '-' ::
        (bytesHexChars ((u.drop 8).take 2) ++ '-' ::
          bytesHexChars (u.drop 10))))

/-- `primitive.UUID.String()` on the sixteen UUID bytes. -/
def uuidString (u : List Nat) : String := String.mk (uuidChars u)

/-- Numeric value of a lowercase hex digit character (code points 48-57
and 97-102), `none` for anything else. -/
def hexVal (c : Char) : Option Nat :=
  if 48 <= c.toNat && c.toNat <= 57 then some (c.toNat - 48)
  else if 97 <= c.toNat && c.toNat <= 102 then some (c.toNat - 87)
  else none

/-- Read one byte (two hex characters) off a character stream. -/
def readHexByte : List Char → Option (Nat × List Char)
  | c1 :: c2 :: rest =>
    match hexVal c1, hexVal c2 with
    | some h, some l => some (h * 16 + l, rest)
    | _, _ => none
  | _ => none

/-- Read `n` bytes off a character stream. -/
def readHexBytes : Nat → List Char → Option (List Nat × List Char)
  | 0, cs => some ([], cs)
  | n + 1, cs =>
    match readHexByte cs with
    | none => none
    | some (b, cs') =>
      match readHexBytes n cs' with
      | none => none
      | some (bs, cs'') => some (b :: bs, cs'')

/-- Expect a literal dash at the head of a character stream. -/
def readDash : List Char → Option (List Char)
  | '-' :: cs => some cs
  | _ => none

/-- Recover the sixteen UUID bytes from the canonical character form; the
left inverse of `uuidChars` used to establish its injectivity. -/
def readUuidChars (cs : List Char) : Option (List Nat) :=
  match readHexBytes 4 cs with
  | none => none
  | some (b1, cs) =>
    match readDash cs with
    | none => none
    | some cs =>
      match readHexBytes 2 cs with
      | none => none
      | some (b2, cs) =>
        match readDash cs with
        | none => none
        | some cs =>
          match readHexBytes 2 cs with
          | none => none
          | some (b3, cs) =>
            match readDash cs with
            | none => none
            | some cs =>
              match readHexBytes 2 cs with
              | none => none
              | some (b4, cs) =>
                match readDash cs with
                | none => none
                | some cs =>
                  match readHexBytes 6 cs with
                  | none => none
                  | some (b5, cs) =>
                    if cs = [] then some (b1 ++ b2 ++ b3 ++ b4 ++ b5)
                    else none

/-! ### IP addresses

Model of `net.IP` (a byte slice) with the operations the factory uses:
`Equal` and the string form.  IPv6 zero-run compression of the standard
library's formatter is not modelled; the claims only exercise dotted-quad
addresses. -/

/-- `net.IPv4zero` as 4 bytes. -/
def IPv4zero : List Nat := [0, 0, 0, 0]

/-- `net.IPv6zero` as 16 bytes. -/
def IPv6zero : List Nat := List.replicate 16 0

/-- The 12-byte lead-in of an IPv4-in-IPv6 address. -/
def v4InV6Head : List Nat := [0, 0, 0, 0, 0, 0, 0, 0, 0, 0, 255, 255]

/-- `net.IP.Equal`: bytewise equality, with a 4-byte address equal to its
16-byte IPv4-in-IPv6 form. -/
def ipEqual (x y : List Nat) : Bool :=
  if x.length = y.length then x = y
  else if x.length = 4 ∧ y.length = 16 then
    y.take 12 = v4InV6Head ∧ y.drop 12 = x
  else if x.length = 16 ∧ y.length = 4 then
    x.take 12 = v4InV6Head ∧ x.drop 12 = y
  else false

/-- Dotted-quad form of 4 address bytes. -/
def ipDotted (bs : List Nat) : String :=
  String.intercalate "." (bs.map (fun b => toString b))

/-- Colon-joined hex groups of 16 address bytes. -/
def ip6Groups : List Nat → List String
  | hi :: lo :: rest => String.mk (bytesHexChars [hi, lo]) :: ip6Groups rest
  | _ => []

/-- `net.IP.String()`: dotted quad for a 4-byte or IPv4-in-IPv6 address,
hex groups otherwise. -/
def ipString (bs : List Nat) : String :=
  if bs.length = 4 then ipDotted bs
  else if bs.length = 16 ∧ bs.take 12 = v4InV6Head then ipDotted (bs.drop 12)
  else if bs.length = 16 then String.intercalate ":" (ip6Groups bs)
  else "?"

/-! ### X.509 model

`crypto/x509` is consumed at its interface boundary: a parsed certificate
carries the identities and fields chain building inspects, raw peer bytes
either parse to a certificate or are malformed, and `Certificate.Verify`
succeeds exactly when the leaf is currently valid, carries the expected
DNS name, and chains through the supplied intermediates to a trust root. -/

/-- A parsed X.509 certificate, reduced to the fields chain verification
inspects: key identities, subject alternative names, validity window. -/
structure Certificate where
  subjectKeyId : Nat
  authorityKeyId : Nat
  dnsNames : List String
  notBefore : Nat
  notAfter : Nat
deriving DecidableEq

/-- `c` carries a signature attributable to `p`. -/
def directlySignedBy (c p : Certificate) : Bool :=
  c.authorityKeyId = p.subjectKeyId

/-- The certificate's validity window contains instant `t`. -/
def certValidAt (c : Certificate) (t : Nat) : Bool :=
  c.notBefore ≤ t ∧ t ≤ c.notAfter

/-- A signature chain from `c` through the intermediates reaches one of
the roots, with at most `fuel` intermediate hops. -/
def chainToRoots (roots inters : List Certificate) :
    Nat → Certificate → Bool
  | 0, c => roots.any (directlySignedBy c)
  | fuel + 1, c =>
    roots.any (directlySignedBy c) ||
      inters.any (fun i => directlySignedBy c i && chainToRoots roots inters fuel i)

/-- The verification context of `x509.VerifyOptions`: trust roots, the
validity instant, the expected DNS name, supplied intermediates. -/
structure VerifyOptions where
  Roots : List Certificate
  CurrentTime : Nat
  DNSName : String
  Intermediates : List Certificate

/-- Modelled from the spec: `x509.Certificate.Verify` (standard library,
outside this file's source) — chain building anchored at `opts.Roots`
through `opts.Intermediates`, failing on an expired certificate, a DNS
name mismatch, or an untrusted chain. -/
def x509Verify (c : Certificate) (opts : VerifyOptions) :
    Except String Unit :=
  if ¬certValidAt c opts.CurrentTime then
    .error "x509: certificate has expired or is not yet valid"
  else if ¬opts.DNSName ∈ c.dnsNames then
    .error "x509: certificate is valid for other names"
  else if chainToRoots opts.Roots opts.Intermediates opts.Intermediates.length c then
    .ok ()
  else .error "x509: certificate signed by unknown authority"

/-- Raw certificate bytes presented by a peer: either bytes that parse to
a certificate, or malformed bytes. -/
inductive RawCert where
  | parsable (c : Certificate)
  | malformed (msg : String)
deriving DecidableEq

/-- `x509.ParseCertificate` at the interface boundary. -/
def parseCertificate : RawCert → Except String Certificate
  | .parsable c => .ok c
  | .malformed msg => .error msg

/-- The parse loop of the verification callback: parse every presented
raw certificate, stopping at the first failure. -/
def parseAllCerts : List RawCert → Except String (List Certificate)
  | [] => .ok []
  | rc :: rest =>
    match parseCertificate rc with
    | .error e => .error e
    | .ok c =>
      match parseAllCerts rest with
      | .error e => .error e
      | .ok cs => .ok (c :: cs)

/-! ### TLS configuration and the secure-connect bundle -/

/-- `tls.Config`, reduced to the fields this code reads and writes.  The
installed verification callback closure is modelled separately (as
`verifyPeerCertificateCallback`); the configuration records whether one
has been installed. -/
structure TLSConfig where
  RootCAs : List Certificate
  ServerName : String
  InsecureSkipVerify : Bool
  VerifyPeerCertificateSet : Bool
deriving DecidableEq, Inhabited

/-- The secure-connect bundle, consumed read-only: metadata host and
port, and the base TLS configuration holding the CA trust pool. -/
structure Bundle where
  host : String
  port : Nat
  tlsConfig : TLSConfig
deriving DecidableEq

/-- `Bundle.Host()`. -/
def Bundle.Host (b : Bundle) : String := b.host

/-- `Bundle.Port()`. -/
def Bundle.Port (b : Bundle) : Nat := b.port

/-- Modelled from the spec: `Bundle.TLSConfig()` (the bundle loader is
outside this file's source) hands out the bundle's base TLS configuration
as a fresh value per call — "the Trust Builder clones rather than mutates
it in place". -/
def Bundle.TLSConfig (b : Bundle) : TLSConfig := b.tlsConfig

/-- `copyTLSConfig`: take the bundle's TLS configuration, set the SNI
server name to the per-node identity, disable the transport's built-in
verification, and install the custom peer-verification callback. -/
def copyTLSConfig (bundle : Bundle) (serverName : String) : TLSConfig :=
  let tlsConfig := bundle.TLSConfig
  let tlsConfig := { tlsConfig with ServerName := serverName }
  let tlsConfig := { tlsConfig with InsecureSkipVerify := true }
  let tlsConfig := { tlsConfig with VerifyPeerCertificateSet := true }
  tlsConfig

/-- The `VerifyPeerCertificate` closure installed by `copyTLSConfig`,
with its captured configuration and bundle as parameters and `time.Now()`
as the instant `now`: parse every raw certificate, then verify the leaf
against the configuration's root pool, the bundle's hostname, the current
time, and the remaining certificates as intermediates.  Indexing the leaf
out of an empty chain panics in Go; the panic is an error value here. -/
def verifyPeerCertificateCallback (bundle : Bundle) (tlsConfig : TLSConfig)
    (now : Nat) (rawCerts : List RawCert) : Except String Unit :=
  match parseAllCerts rawCerts with
  | .error e => .error ("tls: failed to parse certificate from server: " ++ e)
  | .ok certs =>
    match certs with
    | [] => .error "panic: index out of range"
    | leaf :: rest =>
      x509Verify leaf
        { Roots := tlsConfig.RootCAs
          CurrentTime := now
          DNSName := bundle.Host
          Intermediates := rest }

/-! ### Endpoints and the two factory strategies -/

/-- The closed set of `Endpoint` variants: `default` (direct strategy,
plaintext) and `astra` (cloud strategy, per-node TLS identity). -/
inductive Endpoint where
  | default (addr : String)
  | astra (addr : String) (tlsConfig : TLSConfig)
deriving DecidableEq

/-- `Endpoint.Key()`: the address for a direct endpoint; the address, a
colon and the TLS server name for a cloud endpoint. -/
def Endpoint.Key : Endpoint → String
  | .default addr => addr
  | .astra addr tlsConfig => addr ++ ":" ++ tlsConfig.ServerName

/-- `Endpoint.String()`: both variants return their `Key()`. -/
def Endpoint.toStr (e : Endpoint) : String := e.Key

/-- `Endpoint.Addr()`. -/
def Endpoint.Addr : Endpoint → String
  | .default addr => addr
  | .astra addr _ => addr

/-- `Endpoint.IsResolved()`: true for the direct variant, false for the
cloud variant. -/
def Endpoint.IsResolved : Endpoint → Bool
  | .default _ => true
  | .astra _ _ => false

/-- `Endpoint.TlsConfig()`: `none` models Go's nil configuration of the
direct variant. -/
def Endpoint.TlsConfig : Endpoint → Option TLSConfig
  | .default _ => none
  | .astra _ tlsConfig => some tlsConfig

/-- The direct strategy's factory: resolved contact points and the
default port. -/
structure defaultEndpointFactory where
  contactPoints : List Endpoint
  defaultPort : Nat
deriving DecidableEq

/-- Split a character sequence on a separator character; the groups of
`strings.Split`. -/
def splitChars (sep : Char) : List Char → List (List Char)
  | [] => [[]]
  | c :: rest =>
    let r := splitChars sep rest
    if c = sep then [] :: r
    else
      match r with
      | [] => [[c]]
      | g :: gs => (c :: g) :: gs

/-- `strings.Split` on a one-character separator. -/
def stringSplit (s : String) (sep : Char) : List String :=
  (splitChars sep s.data).map String.mk

/-- Decimal value of a digit character (code points 48-57). -/
def charDigit (c : Char) : Option Nat :=
  if 48 <= c.toNat && c.toNat <= 57 then some (c.toNat - 48) else none

/-- Accumulate decimal digits; `none` at the first non-digit. -/
def parseDecAux : List Char → Nat → Option Nat
  | [], acc => some acc
  | c :: rest, acc =>
    match charDigit c with
    | none => none
    | some d => parseDecAux rest (acc * 10 + d)

/-- `strconv.Atoi` restricted to the unsigned decimal ports the contact
points carry. -/
def goAtoi (s : String) : Option Nat :=
  match s.data with
  | [] => none
  | cs => parseDecAux cs 0

/-- The contact-point loop of `ResolveWithDefaultPort`, with
`net.LookupHost` passed in at its interface boundary: split each contact
point on colons, resolve the host part, parse an explicit port when one
is given, and emit one endpoint per resolved address.  Any failure aborts
the whole call naming the offending contact point. -/
def resolveContactPoints (lookupHost : String → Except String (List String))
    (defaultPort : Nat) : List String → Except String (List Endpoint)
  | [] => .ok []
  | cp :: rest =>
    let parts := stringSplit cp ':'
    match lookupHost (parts.headD "") with
    | .error e => .error ("unable to resolve contact point " ++ cp ++ ": " ++ e)
    | .ok addrs =>
      let portResult : Except String Nat :=
        if parts.length > 1 then
          match goAtoi (parts.getD 1 "") with
          | none => .error ("contact point " ++ cp ++ " has invalid port: invalid syntax")
          | some p => .ok p
        else .ok defaultPort
      match portResult with
      | .error e => .error e
      | .ok port =>
        match resolveContactPoints lookupHost defaultPort rest with
        | .error e => .error e
        | .ok eps =>
          .ok (addrs.map (fun addr => Endpoint.default (addr ++ ":" ++ toString port)) ++ eps)

/-- `ResolveWithDefaultPort`: build the direct factory from the resolved
contact points. -/
def ResolveWithDefaultPort (lookupHost : String → Except String (List String))
    (contactPoints : List String) (defaultPort : Nat) :
    Except String defaultEndpointFactory :=
  match resolveContactPoints lookupHost defaultPort contactPoints with
  | .error e => .error e
  | .ok eps => .ok { contactPoints := eps, defaultPort := defaultPort }

/-- `Resolve`: `ResolveWithDefaultPort` at the native port 9042. -/
def Resolve (lookupHost : String → Except String (List String))
    (contactPoints : List String) : Except String defaultEndpointFactory :=
  ResolveWithDefaultPort lookupHost contactPoints 9042

/-- The Go type assertion `v.(net.IP)`: the address bytes when the value
is an `inet` value, otherwise a panic (`none`). -/
def asIP : CqlValue → Option (List Nat)
  | .ip bytes => some bytes
  | _ => none

/-- The tail of the direct strategy's `Create` after the `peer` read:
decode `rpc_address` (a fatal error when it fails), assert it to an IP,
substitute `peer` when it is the all-zero IPv4 or IPv6 address — a panic
when `peer` is absent or not an IP there — and format `addr:port`. -/
def createTail (d : defaultEndpointFactory) (row : Row)
    (peer : Option CqlValue) : Except GoError Endpoint :=
  match row.ByName "rpc_address" with
  | .error e => .error e
  | .ok rpcAddress =>
    match asIP rpcAddress with
    | none => .error (.GoPanic "interface conversion: interface is not net.IP")
    | some addr =>
      if ipEqual addr IPv4zero || ipEqual addr IPv6zero then
        match peer with
        | none => .error (.GoPanic "interface conversion: interface is nil")
        | some p =>
          match asIP p with
          | none => .error (.GoPanic "interface conversion: interface is not net.IP")
          | some addr' =>
            .ok (.default (ipString addr' ++ ":" ++ toString d.defaultPort))
      else
        .ok (.default (ipString addr ++ ":" ++ toString d.defaultPort))

/-- `defaultEndpointFactory.Create`: read `peer` first — only a
`ColumnNameNotFound` failure there is tolerated — then proceed with the
`rpc_address` logic. -/
def defaultEndpointFactory.Create (d : defaultEndpointFactory) (row : Row) :
    Except GoError Endpoint :=
  match row.ByName "peer" with
  | .error e =>
    if e = GoError.ColumnNameNotFound then createTail d row none
    else .error e
  | .ok v => createTail d row (some v)

/-- `defaultEndpointFactory.ContactPoints()`. -/
def defaultEndpointFactory.ContactPoints (d : defaultEndpointFactory) :
    List Endpoint :=
  d.contactPoints

/-! ### Cloud bootstrap and the cloud strategy -/

/-- The `contact_info` block of the cloud metadata JSON. -/
structure contactInfo where
  TypeName : String
  LocalDc : String
  SniProxyAddress : String
  ContactPoints : List String
deriving DecidableEq

/-- The cloud metadata JSON document. -/
structure astraMetadata where
  Version : Nat
  Region : String
  ContactInfo : contactInfo
deriving DecidableEq

/-- The body of a metadata response at the `encoding/json` interface
boundary: either well-formed JSON for the metadata document, or a body
`json.Unmarshal` rejects with the given message. -/
inductive MetadataBody where
  | json (m : astraMetadata)
  | invalid (msg : String)
deriving DecidableEq

/-- Outcome of the HTTPS metadata fetch: a transport failure, or a
response carrying a status code and a body (whose read may itself
fail). -/
inductive HTTPResult where
  | failure (msg : String)
  | response (statusCode : Nat) (body : Except String MetadataBody)

/-- The cloud strategy's factory: the bootstrap contact points, the
shared SNI proxy address, and the bundle. -/
structure astraResolver where
  contactPoints : List Endpoint
  host : String
  bundle : Bundle
deriving DecidableEq

/-- `ResolveAstra` with the HTTPS fetch at its interface boundary: a
transport failure aborts with an error naming the metadata URL; a body
read failure or a body `json.Unmarshal` rejects aborts with the
underlying error; otherwise every metadata contact point becomes one
cloud endpoint at the shared `sni_proxy_address` with a per-identity TLS
configuration.  The response status code is never inspected. -/
def ResolveAstra (bundle : Bundle) (fetch : HTTPResult) :
    Except String astraResolver :=
  let url := "https://" ++ bundle.Host ++ ":" ++ toString bundle.Port ++ "/metadata"
  match fetch with
  | .failure msg => .error ("unable to get metadata from " ++ url ++ ": " ++ msg)
  | .response _statusCode body =>
    match body with
    | .error e => .error e
    | .ok (.invalid e) => .error e
    | .ok (.json metadata) =>
      .ok
        { contactPoints := metadata.ContactInfo.ContactPoints.map (fun cp =>
            Endpoint.astra metadata.ContactInfo.SniProxyAddress
              (copyTLSConfig bundle cp))
          host := metadata.ContactInfo.SniProxyAddress
          bundle := bundle }

/-- `astraResolver.ContactPoints()`. -/
def astraResolver.ContactPoints (a : astraResolver) : List Endpoint :=
  a.contactPoints

/-- `astraResolver.Create`: read `host_id` (any failure is fatal), assert
it to a UUID (a panic otherwise), and build a cloud endpoint at the
shared address whose TLS server name is the UUID's string form. -/
def astraResolver.Create (a : astraResolver) (row : Row) :
    Except GoError Endpoint :=
  match row.ByName "host_id" with
  | .error e => .error e
  | .ok hostId =>
    match hostId with
    | .uuid u => .ok (.astra a.host (copyTLSConfig a.bundle (uuidString u)))
    | _ => .error (.GoPanic "interface conversion: interface is not primitive.UUID")

/-! ### Mutable-cell model of the TLS configuration copy

Go's `tls.Config` values live behind pointers; whether the per-call field
assignments of `copyTLSConfig` are observable elsewhere depends on which
cell they hit.  `TLSState` is the store of configuration cells,
`BundleRef` a bundle holding a reference to its base cell, and
`copyTLSConfigSt` the store-passing form of `copyTLSConfig`. -/

/-- The store of allocated `tls.Config` cells. -/
structure TLSState where
  cells : List TLSConfig
deriving DecidableEq

/-- A bundle as a holder of a reference to its base configuration cell. -/
structure BundleRef where
  baseRef : Nat
deriving DecidableEq

/-- Read a configuration cell. -/
def readCell (s : TLSState) (r : Nat) : TLSConfig :=
  s.cells.getD r default

/-- Overwrite a configuration cell. -/
def writeCell (s : TLSState) (r : Nat) (c : TLSConfig) : TLSState :=
  { cells := s.cells.set r c }

/-- Modelled from the spec: `Bundle.TLSConfig()` in the store-passing
model — allocate a fresh cell holding a copy of the base configuration
and return its reference, never the base cell itself. -/
def bundleTLSConfigSt (s : TLSState) (b : BundleRef) : TLSState × Nat :=
  ({ cells := s.cells ++ [readCell s b.baseRef] }, s.cells.length)

/-- Store-passing `copyTLSConfig`: obtain a configuration from the
bundle, then assign its `ServerName`, `InsecureSkipVerify` and
verification callback fields in place, and return its reference. -/
def copyTLSConfigSt (s : TLSState) (b : BundleRef) (serverName : String) :
    TLSState × Nat :=
  let p := bundleTLSConfigSt s b
  let c := readCell p.1 p.2
  let c := { c with ServerName := serverName }
  let c := { c with InsecureSkipVerify := true }
  let c := { c with VerifyPeerCertificateSet := true }
  (writeCell p.1 p.2 c, p.2)

/-! ## Properties of the name→position index -/

/-- Position of the last column named `n`, counting from offset `k`;
`lastIdxFrom cs 0 n` is the metadata position of the last occurrence of
`n`. -/
def lastIdxFrom : List ColumnMetadata → Nat → String → Option Nat
  | [], _, _ => none
  | c :: cs, k, n =>
    match lastIdxFrom cs (k + 1) n with
    | some j => some j
    | none => if c.Name = n then some k else none

lemma goMapLookup_insert (m : List (String × Nat)) (k q : String) (v : Nat) :
    goMapLookup (goMapInsert m k v) q =
      if k = q then some v else goMapLookup m q := by
  induction m with
  | nil => simp [goMapInsert, goMapLookup]
  | cons e rest ih =>
    obtain ⟨k', v'⟩ := e
    by_cases h1 : k' = k
    · subst h1
      by_cases h2 : k' = q <;> simp [goMapInsert, goMapLookup, h2]
    · by_cases h2 : k' = q
      · subst h2
        have : k ≠ k' := fun h => h1 h.symm
        simp [goMapInsert, goMapLookup, h1, this]
      · simp [goMapInsert, goMapLookup, h1, h2, ih]

lemma buildColumnIndexes_lookup (cs : List ColumnMetadata) (k : Nat)
    (m : List (String × Nat)) (n : String) :
    goMapLookup (buildColumnIndexes cs k m) n =
      match lastIdxFrom cs k n with
      | some j => some j
      | none => goMapLookup m n := by
  induction cs generalizing k m with
  | nil => rfl
  | cons c cs ih =>
    simp only [buildColumnIndexes, lastIdxFrom]
    rw [ih]
    cases h : lastIdxFrom cs (k + 1) n with
    | some j => simp
    | none =>
      rw [goMapLookup_insert]
      by_cases hn : c.Name = n <;> simp [hn]

lemma newResultSet_lookup (rows : RowsResult) (version : Nat) (n : String) :
    goMapLookup (NewResultSet rows version).columnIndexes n =
      lastIdxFrom rows.Metadata.Columns 0 n := by
  show goMapLookup (buildColumnIndexes rows.Metadata.Columns 0 []) n = _
  rw [buildColumnIndexes_lookup]
  cases lastIdxFrom rows.Metadata.Columns 0 n <;> simp [goMapLookup]

lemma lastIdxFrom_none {cs : List ColumnMetadata} {n : String}
    (h : ∀ j, (hj : j < cs.length) → (cs[j]).Name ≠ n) (k : Nat) :
    lastIdxFrom cs k n = none := by
  induction cs generalizing k with
  | nil => rfl
  | cons c cs ih =>
    have hc : c.Name ≠ n := by simpa using h 0 (by simp)
    have hrest : ∀ j, (hj : j < cs.length) → (cs[j]).Name ≠ n := by
      intro j hj
      simpa using h (j + 1) (by simpa using Nat.succ_lt_succ hj)
    simp [lastIdxFrom, ih hrest, hc]

lemma lastIdxFrom_isLast {cs : List ColumnMetadata} {n : String} {i : Nat}
    (hi : i < cs.length) (hname : (cs[i]).Name = n)
    (hlast : ∀ j, i < j → (hj : j < cs.length) → (cs[j]).Name ≠ n) (k : Nat) :
    lastIdxFrom cs k n = some (k + i) := by
  induction cs generalizing k i with
  | nil => simp at hi
  | cons c cs ih =>
    cases i with
    | zero =>
      have hnone : lastIdxFrom cs (k + 1) n = none := by
        apply lastIdxFrom_none
        intro j hj
        simpa using hlast (j + 1) (Nat.succ_pos j) (by simpa using Nat.succ_lt_succ hj)
      simp only [lastIdxFrom, hnone]
      simp only [List.getElem_cons_zero] at hname
      simp [hname]
    | succ i' =>
      have hi' : i' < cs.length := by simpa using Nat.lt_of_succ_lt_succ hi
      have hname' : (cs[i']).Name = n := by simpa using hname
      have hlast' : ∀ j, i' < j → (hj : j < cs.length) → (cs[j]).Name ≠ n := by
        intro j hij hj
        simpa using hlast (j + 1) (Nat.succ_lt_succ hij) (by simpa using Nat.succ_lt_succ hj)
      have hrec := ih hi' hname' hlast' (k + 1)
      simp only [lastIdxFrom, hrec]
      congr 1
      omega

/-- Claim C8: for every decoded result and protocol version and every
column name present in the metadata (at a unique position `i`),
`Row.ByName` returns exactly the same value/error as `Row.ByPos i`. -/
theorem byName_eq_byPos (rows : RowsResult) (version : Nat)
    (rowData : List RawValue) (n : String) (i : Nat)
    (hi : i < rows.Metadata.Columns.length)
    (hname : (rows.Metadata.Columns[i]).Name = n)
    (huniq : ∀ j, (hj : j < rows.Metadata.Columns.length) →
      (rows.Metadata.Columns[j]).Name = n → j = i) :
    (Row.mk (NewResultSet rows version) rowData).ByName n =
      (Row.mk (NewResultSet rows version) rowData).ByPos i := by
  have hlast : ∀ j, i < j → (hj : j < rows.Metadata.Columns.length) →
      (rows.Metadata.Columns[j]).Name ≠ n := by
    intro j hij hj hn
    have := huniq j hj hn
    omega
  have h := lastIdxFrom_isLast hi hname hlast 0
  simp only [Row.ByName, newResultSet_lookup, h, Nat.zero_add]

/-- Witness for C8 on a two-column result. -/
theorem byName_eq_byPos_witness :
    (Row.mk (NewResultSet ⟨⟨[⟨"peer", .inet⟩, ⟨"rpc_address", .inet⟩]⟩,
        [[some [10, 0, 0, 5], some [10, 0, 0, 9]]]⟩ 4)
      [some [10, 0, 0, 5], some [10, 0, 0, 9]]).ByName "rpc_address" =
    (Row.mk (NewResultSet ⟨⟨[⟨"peer", .inet⟩, ⟨"rpc_address", .inet⟩]⟩,
        [[some [10, 0, 0, 5], some [10, 0, 0, 9]]]⟩ 4)
      [some [10, 0, 0, 5], some [10, 0, 0, 9]]).ByPos 1 :=
  byName_eq_byPos _ 4 _ "rpc_address" 1 (by decide) (by decide) (by decide)

/-- Claim C9: with duplicate column names in the metadata, the index
built by `NewResultSet` silently maps the name to the position of its
last occurrence, and `ByName` therefore decodes that last column. -/
theorem duplicate_column_last_wins (rows : RowsResult) (version : Nat)
    (rowData : List RawValue) (n : String) (i j : Nat)
    (_hij : i < j)
    (hi : i < rows.Metadata.Columns.length)
    (hj : j < rows.Metadata.Columns.length)
    (_hnamei : (rows.Metadata.Columns[i]).Name = n)
    (hnamej : (rows.Metadata.Columns[j]).Name = n)
    (hlast : ∀ l, (hl : l < rows.Metadata.Columns.length) → j < l →
      (rows.Metadata.Columns[l]).Name ≠ n) :
    goMapLookup (NewResultSet rows version).columnIndexes n = some j ∧
    (Row.mk (NewResultSet rows version) rowData).ByName n =
      (Row.mk (NewResultSet rows version) rowData).ByPos j := by
  have h := lastIdxFrom_isLast hj hnamej (fun l hjl hl => hlast l hl hjl) 0
  constructor
  · rw [newResultSet_lookup, h, Nat.zero_add]
  · simp only [Row.ByName, newResultSet_lookup, h, Nat.zero_add]

/-- Witness for C9 on a result whose first and third columns are both
named `a`. -/
theorem duplicate_column_last_wins_witness :
    goMapLookup (NewResultSet ⟨⟨[⟨"a", .inet⟩, ⟨"b", .inet⟩, ⟨"a", .uuid⟩]⟩, []⟩ 4).columnIndexes "a" =
      some 2 ∧
    (Row.mk (NewResultSet ⟨⟨[⟨"a", .inet⟩, ⟨"b", .inet⟩, ⟨"a", .uuid⟩]⟩, []⟩ 4)
        [some [1, 2, 3, 4], none, some (List.replicate 16 7)]).ByName "a" =
      (Row.mk (NewResultSet ⟨⟨[⟨"a", .inet⟩, ⟨"b", .inet⟩, ⟨"a", .uuid⟩]⟩, []⟩ 4)
        [some [1, 2, 3, 4], none, some (List.replicate 16 7)]).ByPos 2 :=
  duplicate_column_last_wins _ 4 _ "a" 0 2 (by decide) (by decide) (by decide)
    (by decide) (by decide) (by decide)

/-! ## Direct strategy: rpc_address / peer logic -/

/-- Claim C3: when the decoded `rpc_address` is the all-zero IPv4 or IPv6
address, the endpoint address is the decoded `peer` with the default
port; for any other `rpc_address` it is `rpc_address` with the default
port regardless of the `peer` column's value. -/
theorem direct_create_address (d : defaultEndpointFactory) (row : Row)
    (a : List Nat) (hrpc : row.ByName "rpc_address" = .ok (.ip a)) :
    ((ipEqual a IPv4zero || ipEqual a IPv6zero) = true →
      ∀ p, row.ByName "peer" = .ok (.ip p) →
        d.Create row = .ok (.default (ipString p ++ ":" ++ toString d.defaultPort)))
    ∧ ((ipEqual a IPv4zero || ipEqual a IPv6zero) = false →
      ∀ v, row.ByName "peer" = .ok v →
        d.Create row = .ok (.default (ipString a ++ ":" ++ toString d.defaultPort))) := by
  constructor
  · intro hzero p hpeer
    simp [defaultEndpointFactory.Create, hpeer, createTail, hrpc, asIP, hzero]
  · intro hnz v hpeer
    simp [defaultEndpointFactory.Create, hpeer, createTail, hrpc, asIP, hnz]

/-- Witness for C3: the spec's concrete rows.  With default port 9042, a
row with `rpc_address = 0.0.0.0` and `peer = 10.0.0.5` yields address
`10.0.0.5:9042`, and a row with `rpc_address = 10.0.0.9` yields
`10.0.0.9:9042`. -/
theorem direct_create_address_witness :
    defaultEndpointFactory.Create ⟨[], 9042⟩
      (Row.mk (NewResultSet ⟨⟨[⟨"peer", .inet⟩, ⟨"rpc_address", .inet⟩]⟩,
          [[some [10, 0, 0, 5], some [0, 0, 0, 0]]]⟩ 4)
        [some [10, 0, 0, 5], some [0, 0, 0, 0]]) =
      .ok (.default "10.0.0.5:9042") ∧
    defaultEndpointFactory.Create ⟨[], 9042⟩
      (Row.mk (NewResultSet ⟨⟨[⟨"peer", .inet⟩, ⟨"rpc_address", .inet⟩]⟩,
          [[some [10, 0, 0, 5], some [10, 0, 0, 9]]]⟩ 4)
        [some [10, 0, 0, 5], some [10, 0, 0, 9]]) =
      .ok (.default "10.0.0.9:9042") := by
  constructor
  · have h := (direct_create_address ⟨[], 9042⟩
      (Row.mk (NewResultSet ⟨⟨[⟨"peer", .inet⟩, ⟨"rpc_address", .inet⟩]⟩,
          [[some [10, 0, 0, 5], some [0, 0, 0, 0]]]⟩ 4)
        [some [10, 0, 0, 5], some [0, 0, 0, 0]]) [0, 0, 0, 0]
      (by decide)).1 (by decide) [10, 0, 0, 5] (by decide)
    exact h.trans (by decide)
  · have h := (direct_create_address ⟨[], 9042⟩
      (Row.mk (NewResultSet ⟨⟨[⟨"peer", .inet⟩, ⟨"rpc_address", .inet⟩]⟩,
          [[some [10, 0, 0, 5], some [10, 0, 0, 9]]]⟩ 4)
        [some [10, 0, 0, 5], some [10, 0, 0, 9]]) [10, 0, 0, 9]
      (by decide)).2 (by decide) (.ip [10, 0, 0, 5]) (by decide)
    exact h.trans (by decide)

/-- Claim C7: a missing `rpc_address` column is a fatal error for the
direct strategy's `Create`; a missing `peer` column is tolerated exactly
when `rpc_address` decodes to a non-zero address (in which case the
endpoint is produced without error), and is fatal when `rpc_address` is
the all-zero address. -/
theorem direct_create_missing_columns (d : defaultEndpointFactory) (row : Row) :
    (goMapLookup row.resultSet.columnIndexes "rpc_address" = none →
      exceptIsOk (d.Create row) = false)
    ∧ (∀ a, goMapLookup row.resultSet.columnIndexes "peer" = none →
        row.ByName "rpc_address" = .ok (.ip a) →
        (ipEqual a IPv4zero || ipEqual a IPv6zero) = false →
        d.Create row = .ok (.default (ipString a ++ ":" ++ toString d.defaultPort)))
    ∧ (∀ a, goMapLookup row.resultSet.columnIndexes "peer" = none →
        row.ByName "rpc_address" = .ok (.ip a) →
        (ipEqual a IPv4zero || ipEqual a IPv6zero) = true →
        exceptIsOk (d.Create row) = false) := by
  refine ⟨?_, ?_, ?_⟩
  · intro h
    have hrpc : row.ByName "rpc_address" = .error .ColumnNameNotFound := by
      simp [Row.ByName, h]
    cases hp : row.ByName "peer" with
    | error e =>
      by_cases he : e = GoError.ColumnNameNotFound <;>
        simp [defaultEndpointFactory.Create, hp, he, createTail, hrpc, exceptIsOk]
    | ok v => simp [defaultEndpointFactory.Create, hp, createTail, hrpc, exceptIsOk]
  · intro a hpeer hrpc hnz
    have hp : row.ByName "peer" = .error .ColumnNameNotFound := by
      simp [Row.ByName, hpeer]
    simp [defaultEndpointFactory.Create, hp, createTail, hrpc, asIP, hnz]
  · intro a hpeer hrpc hzero
    have hp : row.ByName "peer" = .error .ColumnNameNotFound := by
      simp [Row.ByName, hpeer]
    simp [defaultEndpointFactory.Create, hp, createTail, hrpc, asIP, hzero, exceptIsOk]

/-- Witness for C7: a row without an `rpc_address` column fails; a row
without a `peer` column succeeds when `rpc_address` is non-zero and fails
when it is `0.0.0.0`. -/
theorem direct_create_missing_columns_witness :
    exceptIsOk (defaultEndpointFactory.Create ⟨[], 9042⟩
      (Row.mk (NewResultSet ⟨⟨[⟨"peer", .inet⟩]⟩, [[some [10, 0, 0, 5]]]⟩ 4)
        [some [10, 0, 0, 5]])) = false ∧
    defaultEndpointFactory.Create ⟨[], 9042⟩
      (Row.mk (NewResultSet ⟨⟨[⟨"rpc_address", .inet⟩]⟩, [[some [10, 0, 0, 9]]]⟩ 4)
        [some [10, 0, 0, 9]]) = .ok (.default "10.0.0.9:9042") ∧
    exceptIsOk (defaultEndpointFactory.Create ⟨[], 9042⟩
      (Row.mk (NewResultSet ⟨⟨[⟨"rpc_address", .inet⟩]⟩, [[some [0, 0, 0, 0]]]⟩ 4)
        [some [0, 0, 0, 0]])) = false := by
  refine ⟨?_, ?_, ?_⟩
  · exact (direct_create_missing_columns ⟨[], 9042⟩
      (Row.mk (NewResultSet ⟨⟨[⟨"peer", .inet⟩]⟩, [[some [10, 0, 0, 5]]]⟩ 4)
        [some [10, 0, 0, 5]])).1 (by decide)
  · have h := (direct_create_missing_columns ⟨[], 9042⟩
      (Row.mk (NewResultSet ⟨⟨[⟨"rpc_address", .inet⟩]⟩, [[some [10, 0, 0, 9]]]⟩ 4)
        [some [10, 0, 0, 9]])).2.1 [10, 0, 0, 9] (by decide) (by decide) (by decide)
    exact h.trans (by decide)
  · exact (direct_create_missing_columns ⟨[], 9042⟩
      (Row.mk (NewResultSet ⟨⟨[⟨"rpc_address", .inet⟩]⟩, [[some [0, 0, 0, 0]]]⟩ 4)
        [some [0, 0, 0, 0]])).2.2 [0, 0, 0, 0] (by decide) (by decide) (by decide)

/-! ## Endpoint variants produced by the two strategies -/

lemma createTail_isDefault {d : defaultEndpointFactory} {row : Row}
    {peer : Option CqlValue} {e : Endpoint}
    (h : createTail d row peer = .ok e) : ∃ addr, e = Endpoint.default addr := by
  unfold createTail at h
  repeat' split at h
  all_goals
    first
      | exact Except.noConfusion h
      | exact ⟨_, (Except.ok.inj h).symm⟩

lemma create_isDefault {d : defaultEndpointFactory} {row : Row} {e : Endpoint}
    (h : defaultEndpointFactory.Create d row = .ok e) :
    ∃ addr, e = Endpoint.default addr := by
  unfold defaultEndpointFactory.Create at h
  split at h
  · split at h
    · exact createTail_isDefault h
    · exact Except.noConfusion h
  · exact createTail_isDefault h

lemma resolveContactPoints_isDefault
    {lookupHost : String → Except String (List String)} {port : Nat} :
    ∀ {cps eps}, resolveContactPoints lookupHost port cps = .ok eps →
      ∀ e ∈ eps, ∃ addr, e = Endpoint.default addr := by
  intro cps
  induction cps with
  | nil =>
    intro eps h e he
    simp only [resolveContactPoints] at h
    cases h
    simp at he
  | cons cp rest ih =>
    intro eps h e he
    simp only [resolveContactPoints] at h
    split at h
    · exact Except.noConfusion h
    · split at h
      · exact Except.noConfusion h
      · split at h
        · exact Except.noConfusion h
        · cases Except.ok.inj h
          rcases List.mem_append.1 he with hmem | hmem
          · rcases List.mem_map.1 hmem with ⟨addr, _, rfl⟩
            exact ⟨_, rfl⟩
          · exact ih (by assumption) e hmem

lemma resolveAstra_contactPoints_isAstra {bundle : Bundle} {fetch : HTTPResult}
    {a : astraResolver} (h : ResolveAstra bundle fetch = .ok a) :
    ∀ e ∈ a.contactPoints, ∃ addr cfg, e = Endpoint.astra addr cfg := by
  intro e he
  unfold ResolveAstra at h
  repeat' split at h
  all_goals first
    | exact Except.noConfusion h
    | (cases Except.ok.inj h
       rcases List.mem_map.1 he with ⟨cp, _, rfl⟩
       exact ⟨_, _, rfl⟩)

lemma astraCreate_isAstra {a : astraResolver} {row : Row} {e : Endpoint}
    (h : astraResolver.Create a row = .ok e) :
    ∃ addr cfg, e = Endpoint.astra addr cfg := by
  unfold astraResolver.Create at h
  repeat' split at h
  all_goals first
    | exact Except.noConfusion h
    | exact ⟨_, _, (Except.ok.inj h).symm⟩

/-- Claim C10: every endpoint the cloud strategy produces (bootstrap
contact points and `Create` results) reports `IsResolved() = false`;
every endpoint the direct strategy produces reports
`IsResolved() = true`; and for both variants `String()` returns exactly
the `Key()` value. -/
theorem endpoint_resolved_and_string_form :
    (∀ e : Endpoint, e.toStr = e.Key)
    ∧ (∀ (lookupHost : String → Except String (List String)) cps port f,
        ResolveWithDefaultPort lookupHost cps port = .ok f →
        ∀ e ∈ f.contactPoints, e.IsResolved = true)
    ∧ (∀ d row e, defaultEndpointFactory.Create d row = .ok e → e.IsResolved = true)
    ∧ (∀ bundle fetch a, ResolveAstra bundle fetch = .ok a →
        (∀ e ∈ a.contactPoints, e.IsResolved = false)
        ∧ (∀ row e, a.Create row = .ok e → e.IsResolved = false)) := by
  refine ⟨fun e => rfl, ?_, ?_, ?_⟩
  · intro lookupHost cps port f h e he
    unfold ResolveWithDefaultPort at h
    split at h
    · exact Except.noConfusion h
    · cases Except.ok.inj h
      obtain ⟨addr, rfl⟩ := resolveContactPoints_isDefault (by assumption) e he
      rfl
  · intro d row e h
    obtain ⟨addr, rfl⟩ := create_isDefault h
    rfl
  · intro bundle fetch a h
    constructor
    · intro e he
      obtain ⟨addr, cfg, rfl⟩ := resolveAstra_contactPoints_isAstra h e he
      rfl
    · intro row e hc
      obtain ⟨addr, cfg, rfl⟩ := astraCreate_isAstra hc
      rfl

/-- Witness for C10: a direct factory over one literal contact point and
a cloud factory over one metadata contact point. -/
theorem endpoint_resolved_witness :
    (Endpoint.default "10.0.0.1:9042").toStr = (Endpoint.default "10.0.0.1:9042").Key
    ∧ Endpoint.IsResolved (Endpoint.default "10.0.0.1:9042") = true
    ∧ Endpoint.IsResolved
        (Endpoint.astra "sni.example.com:9042"
          (copyTLSConfig ⟨"db.example.com", 30443, ⟨[], "", false, false⟩⟩ "cp1")) = false := by
  refine ⟨(endpoint_resolved_and_string_form).1 _, ?_, ?_⟩
  · exact (endpoint_resolved_and_string_form).2.1
      (fun _ => .ok ["10.0.0.1"]) ["10.0.0.1"] 9042
      ⟨[Endpoint.default "10.0.0.1:9042"], 9042⟩ (by decide)
      (Endpoint.default "10.0.0.1:9042") (by decide)
  · exact ((endpoint_resolved_and_string_form).2.2.2
      ⟨"db.example.com", 30443, ⟨[], "", false, false⟩⟩
      (.response 200 (.ok (.json ⟨1, "r", ⟨"t", "dc", "sni.example.com:9042", ["cp1"]⟩⟩)))
      ⟨[Endpoint.astra "sni.example.com:9042"
          (copyTLSConfig ⟨"db.example.com", 30443, ⟨[], "", false, false⟩⟩ "cp1")],
        "sni.example.com:9042", ⟨"db.example.com", 30443, ⟨[], "", false, false⟩⟩⟩
      (by decide)).1
      (Endpoint.astra "sni.example.com:9042"
        (copyTLSConfig ⟨"db.example.com", 30443, ⟨[], "", false, false⟩⟩ "cp1"))
      (by decide)

/-! ## Cloud bootstrap failure modes -/

/-- Claim C2 (amended): a transport failure of the metadata fetch aborts
resolution with an explicit error naming the metadata URL; a body-read
failure or a body that `json.Unmarshal` rejects aborts resolution with
the underlying error (which does not name the URL); in every failure
case no factory and no contact points are produced.  The HTTP status
code itself is never inspected. -/
theorem resolveAstra_failure_modes :
    (∀ (bundle : Bundle) msg, ResolveAstra bundle (.failure msg) =
      .error ("unable to get metadata from " ++
        ("https://" ++ bundle.Host ++ ":" ++ toString bundle.Port ++ "/metadata") ++
        ": " ++ msg))
    ∧ (∀ (bundle : Bundle) st e,
        ResolveAstra bundle (.response st (.error e)) = .error e)
    ∧ (∀ (bundle : Bundle) st e,
        ResolveAstra bundle (.response st (.ok (.invalid e))) = .error e) := by
  refine ⟨fun bundle msg => rfl, fun bundle st e => rfl, fun bundle st e => rfl⟩

/-- Counterexample for C2 as stated: a metadata response with HTTP
status 500 whose body is well-formed JSON does not fail resolution — it
produces a factory with a non-empty contact-point list. -/
theorem resolveAstra_accepts_non2xx :
    ResolveAstra ⟨"h", 2, ⟨[], "", false, false⟩⟩
      (.response 500 (.ok (.json ⟨1, "r", ⟨"t", "dc", "sni:9042", ["cp1"]⟩⟩))) =
      .ok ⟨[Endpoint.astra "sni:9042"
              (copyTLSConfig ⟨"h", 2, ⟨[], "", false, false⟩⟩ "cp1")],
            "sni:9042", ⟨"h", 2, ⟨[], "", false, false⟩⟩⟩ ∧
    ([Endpoint.astra "sni:9042"
        (copyTLSConfig ⟨"h", 2, ⟨[], "", false, false⟩⟩ "cp1")] : List Endpoint) ≠ [] := by
  exact ⟨by decide, by decide⟩

/-! ## The TLS trust builder's verification callback -/

lemma parseAllCerts_error_of_malformed {rawCerts : List RawCert} {m : String}
    (h : RawCert.malformed m ∈ rawCerts) :
    ∃ e, parseAllCerts rawCerts = .error e := by
  induction rawCerts with
  | nil => cases h
  | cons rc rest ih =>
    cases h with
    | head => exact ⟨m, rfl⟩
    | tail _ h' =>
      obtain ⟨e, he⟩ := ih h'
      cases rc with
      | parsable c => exact ⟨e, by simp [parseAllCerts, parseCertificate, he]⟩
      | malformed m' => exact ⟨m', rfl⟩

/-- Claim C1: the peer-certificate verification callback installed by the
trust builder accepts a presented chain exactly when the leaf verifies
against a context whose roots are the bundle's CA pool, whose expected
DNS name is the bundle's real hostname, whose validity instant is the
current time and whose intermediates are the certificates after the
leaf; its outcome is independent of the configured SNI server name; any
chain containing malformed certificate bytes is refused; and any chain
whose leaf does not chain to a CA of the bundle's pool through the
presented intermediates is refused. -/
theorem tls_callback_verifies_leaf (bundle : Bundle) (sni : String)
    (now : Nat) (rawCerts : List RawCert) :
    (∀ sni',
      verifyPeerCertificateCallback bundle (copyTLSConfig bundle sni') now rawCerts =
        verifyPeerCertificateCallback bundle (copyTLSConfig bundle sni) now rawCerts)
    ∧ (verifyPeerCertificateCallback bundle (copyTLSConfig bundle sni) now rawCerts = .ok () ↔
        ∃ leaf rest, parseAllCerts rawCerts = .ok (leaf :: rest) ∧
          x509Verify leaf
            { Roots := bundle.tlsConfig.RootCAs, CurrentTime := now,
              DNSName := bundle.Host, Intermediates := rest } = .ok ())
    ∧ (∀ m, RawCert.malformed m ∈ rawCerts →
        exceptIsOk (verifyPeerCertificateCallback bundle (copyTLSConfig bundle sni) now rawCerts) = false)
    ∧ (∀ leaf rest, parseAllCerts rawCerts = .ok (leaf :: rest) →
        chainToRoots bundle.tlsConfig.RootCAs rest rest.length leaf = false →
        exceptIsOk (verifyPeerCertificateCallback bundle (copyTLSConfig bundle sni) now rawCerts) = false) := by
  refine ⟨fun sni' => rfl, ?_, ?_, ?_⟩
  · cases hp : parseAllCerts rawCerts with
    | error e => simp [verifyPeerCertificateCallback, hp]
    | ok certs =>
      cases certs with
      | nil => simp [verifyPeerCertificateCallback, hp]
      | cons leaf rest =>
        simp only [verifyPeerCertificateCallback, hp]
        constructor
        · intro hv
          exact ⟨leaf, rest, rfl, hv⟩
        · rintro ⟨leaf', rest', heq, hv⟩
          injection Except.ok.inj heq with h1 h2
          subst h1
          subst h2
          exact hv
  · intro m hm
    obtain ⟨e, he⟩ := parseAllCerts_error_of_malformed hm
    simp [verifyPeerCertificateCallback, he, exceptIsOk]
  · intro leaf rest hp hchain
    have hroots : (copyTLSConfig bundle sni).RootCAs = bundle.tlsConfig.RootCAs := rfl
    simp only [verifyPeerCertificateCallback, hp]
    unfold x509Verify
    split
    · rfl
    · split
      · rfl
      · simp [hroots, hchain, exceptIsOk]

/-- Witness for C1: a bundle pinning one root CA.  A chain whose leaf is
signed by that root, carries the bundle hostname and is within validity
is accepted (under an unrelated SNI value); a chain with malformed bytes
and a chain whose leaf is signed by an unknown authority are refused. -/
theorem tls_callback_witness :
    verifyPeerCertificateCallback ⟨"db.example.com", 30443, ⟨[⟨1, 1, [], 0, 99⟩], "", false, false⟩⟩
      (copyTLSConfig ⟨"db.example.com", 30443, ⟨[⟨1, 1, [], 0, 99⟩], "", false, false⟩⟩ "node-1")
      5 [RawCert.parsable ⟨2, 1, ["db.example.com"], 0, 10⟩] = .ok ()
    ∧ exceptIsOk (verifyPeerCertificateCallback ⟨"db.example.com", 30443, ⟨[⟨1, 1, [], 0, 99⟩], "", false, false⟩⟩
        (copyTLSConfig ⟨"db.example.com", 30443, ⟨[⟨1, 1, [], 0, 99⟩], "", false, false⟩⟩ "node-1")
        5 [RawCert.malformed "bad asn1"]) = false
    ∧ exceptIsOk (verifyPeerCertificateCallback ⟨"db.example.com", 30443, ⟨[⟨1, 1, [], 0, 99⟩], "", false, false⟩⟩
        (copyTLSConfig ⟨"db.example.com", 30443, ⟨[⟨1, 1, [], 0, 99⟩], "", false, false⟩⟩ "node-1")
        5 [RawCert.parsable ⟨2, 77, ["db.example.com"], 0, 10⟩]) = false := by
  refine ⟨?_, ?_, ?_⟩
  · exact (tls_callback_verifies_leaf
      ⟨"db.example.com", 30443, ⟨[⟨1, 1, [], 0, 99⟩], "", false, false⟩⟩ "node-1" 5
      [RawCert.parsable ⟨2, 1, ["db.example.com"], 0, 10⟩]).2.1.mpr
      ⟨⟨2, 1, ["db.example.com"], 0, 10⟩, [], by decide, by decide⟩
  · exact (tls_callback_verifies_leaf
      ⟨"db.example.com", 30443, ⟨[⟨1, 1, [], 0, 99⟩], "", false, false⟩⟩ "node-1" 5
      [RawCert.malformed "bad asn1"]).2.2.1 "bad asn1" (by decide)
  · exact (tls_callback_verifies_leaf
      ⟨"db.example.com", 30443, ⟨[⟨1, 1, [], 0, 99⟩], "", false, false⟩⟩ "node-1" 5
      [RawCert.parsable ⟨2, 77, ["db.example.com"], 0, 10⟩]).2.2.2
      ⟨2, 77, ["db.example.com"], 0, 10⟩ [] (by decide) (by decide)

/-! ## Cloud strategy: endpoint fields and key derivation -/

/-- Claim C4: a cloud `Create` on a row with a `host_id` yields an
endpoint whose `Addr()` is the shared `sni_proxy_address` obtained at
bootstrap, whose TLS `ServerName` is the string form of that `host_id`,
and whose `Key()` is the address, a colon, and the TLS server name
concatenated in that order. -/
theorem astra_create_fields (bundle : Bundle) (st : Nat) (md : astraMetadata)
    (a : astraResolver) (row : Row) (e : Endpoint) (u : List Nat)
    (hres : ResolveAstra bundle (.response st (.ok (.json md))) = .ok a)
    (hrow : row.ByName "host_id" = .ok (.uuid u))
    (hcreate : a.Create row = .ok e) :
    e.Addr = md.ContactInfo.SniProxyAddress ∧
    ∃ cfg, e.TlsConfig = some cfg ∧ cfg.ServerName = uuidString u ∧
      e.Key = e.Addr ++ ":" ++ cfg.ServerName := by
  simp only [ResolveAstra] at hres
  cases Except.ok.inj hres
  simp only [astraResolver.Create, hrow] at hcreate
  cases Except.ok.inj hcreate
  exact ⟨rfl, copyTLSConfig bundle (uuidString u), rfl, rfl, rfl⟩

/-- Witness for C4 at a concrete bundle, metadata document and
`host_id` row. -/
theorem astra_create_fields_witness :
    (Endpoint.astra "sni:9042"
      (copyTLSConfig ⟨"db.example.com", 30443, ⟨[], "", false, false⟩⟩
        (uuidString [0, 1, 2, 3, 4, 5, 6, 7, 8, 9, 10, 11, 12, 13, 14, 255]))).Addr = "sni:9042" ∧
    ∃ cfg,
      (Endpoint.astra "sni:9042"
        (copyTLSConfig ⟨"db.example.com", 30443, ⟨[], "", false, false⟩⟩
          (uuidString [0, 1, 2, 3, 4, 5, 6, 7, 8, 9, 10, 11, 12, 13, 14, 255]))).TlsConfig = some cfg ∧
      cfg.ServerName = uuidString [0, 1, 2, 3, 4, 5, 6, 7, 8, 9, 10, 11, 12, 13, 14, 255] ∧
      (Endpoint.astra "sni:9042"
        (copyTLSConfig ⟨"db.example.com", 30443, ⟨[], "", false, false⟩⟩
          (uuidString [0, 1, 2, 3, 4, 5, 6, 7, 8, 9, 10, 11, 12, 13, 14, 255]))).Key =
        (Endpoint.astra "sni:9042"
          (copyTLSConfig ⟨"db.example.com", 30443, ⟨[], "", false, false⟩⟩
            (uuidString [0, 1, 2, 3, 4, 5, 6, 7, 8, 9, 10, 11, 12, 13, 14, 255]))).Addr ++
          ":" ++ cfg.ServerName :=
  astra_create_fields ⟨"db.example.com", 30443, ⟨[], "", false, false⟩⟩ 200
    ⟨1, "r", ⟨"t", "dc", "sni:9042", []⟩⟩
    ⟨[], "sni:9042", ⟨"db.example.com", 30443, ⟨[], "", false, false⟩⟩⟩
    (Row.mk (NewResultSet ⟨⟨[⟨"host_id", .uuid⟩]⟩,
        [[some [0, 1, 2, 3, 4, 5, 6, 7, 8, 9, 10, 11, 12, 13, 14, 255]]]⟩ 4)
      [some [0, 1, 2, 3, 4, 5, 6, 7, 8, 9, 10, 11, 12, 13, 14, 255]])
    (Endpoint.astra "sni:9042"
      (copyTLSConfig ⟨"db.example.com", 30443, ⟨[], "", false, false⟩⟩
        (uuidString [0, 1, 2, 3, 4, 5, 6, 7, 8, 9, 10, 11, 12, 13, 14, 255])))
    [0, 1, 2, 3, 4, 5, 6, 7, 8, 9, 10, 11, 12, 13, 14, 255]
    (by decide) (by decide) (by decide)

/-! ## Frame property of the TLS configuration copy -/

lemma listGetD_append_left {α : Type} (xs ys : List α) (i : Nat) (d : α)
    (h : i < xs.length) : (xs ++ ys).getD i d = xs.getD i d := by
  induction xs generalizing i with
  | nil => exact absurd h (Nat.not_lt_zero i)
  | cons y t ih =>
    match i with
    | 0 => rfl
    | j + 1 => simpa using ih j (Nat.lt_of_succ_lt_succ h)

lemma listGetD_append_len {α : Type} (xs ys : List α) (a d : α) :
    (xs ++ a :: ys).getD xs.length d = a := by
  induction xs with
  | nil => rfl
  | cons x xs ih => simpa using ih

lemma listSet_append_len {α : Type} (xs ys : List α) (a b : α) :
    (xs ++ a :: ys).set xs.length b = xs ++ b :: ys := by
  induction xs with
  | nil => rfl
  | cons x xs ih => simp [ih]

lemma copyTLSConfigSt_spec (s : TLSState) (b : BundleRef) (n : String) :
    (copyTLSConfigSt s b n).1.cells =
      s.cells ++
        [{ readCell s b.baseRef with
            ServerName := n
            InsecureSkipVerify := true
            VerifyPeerCertificateSet := true }] ∧
    (copyTLSConfigSt s b n).2 = s.cells.length := by
  have hread : readCell ⟨s.cells ++ [readCell s b.baseRef]⟩ s.cells.length =
      readCell s b.baseRef :=
    listGetD_append_len s.cells [] (readCell s b.baseRef) default
  refine ⟨?_, rfl⟩
  simp only [copyTLSConfigSt, bundleTLSConfigSt, writeCell]
  rw [hread]
  exact listSet_append_len s.cells [] _ _

/-- Claim C6: building a per-node configuration through the bundle never
modifies the bundle's base configuration cell, each call yields a fresh
cell, and the server name assigned by one call is never observable
through the cell of a different call. -/
theorem copyTLSConfig_no_shared_mutation (s : TLSState) (b : BundleRef)
    (n1 n2 : String) (hb : b.baseRef < s.cells.length) :
    readCell (copyTLSConfigSt (copyTLSConfigSt s b n1).1 b n2).1 b.baseRef =
        readCell s b.baseRef
    ∧ (copyTLSConfigSt s b n1).2 ≠ (copyTLSConfigSt (copyTLSConfigSt s b n1).1 b n2).2
    ∧ (readCell (copyTLSConfigSt (copyTLSConfigSt s b n1).1 b n2).1
        (copyTLSConfigSt s b n1).2).ServerName = n1
    ∧ (readCell (copyTLSConfigSt (copyTLSConfigSt s b n1).1 b n2).1
        (copyTLSConfigSt (copyTLSConfigSt s b n1).1 b n2).2).ServerName = n2 := by
  obtain ⟨hc1, hr1⟩ := copyTLSConfigSt_spec s b n1
  obtain ⟨hc2, hr2⟩ := copyTLSConfigSt_spec (copyTLSConfigSt s b n1).1 b n2
  have hlen1 : (copyTLSConfigSt s b n1).1.cells.length = s.cells.length + 1 := by
    rw [hc1]; simp
  refine ⟨?_, ?_, ?_, ?_⟩
  · show (copyTLSConfigSt (copyTLSConfigSt s b n1).1 b n2).1.cells.getD b.baseRef default =
      s.cells.getD b.baseRef default
    rw [hc2, listGetD_append_left _ _ _ _ (by omega)]
    show (copyTLSConfigSt s b n1).1.cells.getD b.baseRef default = _
    rw [hc1, listGetD_append_left _ _ _ _ hb]
  · rw [hr1, hr2]
    omega
  · show ((copyTLSConfigSt (copyTLSConfigSt s b n1).1 b n2).1.cells.getD
      (copyTLSConfigSt s b n1).2 default).ServerName = n1
    rw [hr1, hc2, listGetD_append_left _ _ _ _ (by omega), hc1,
      listGetD_append_len s.cells [] _ default]
  · show ((copyTLSConfigSt (copyTLSConfigSt s b n1).1 b n2).1.cells.getD
      (copyTLSConfigSt (copyTLSConfigSt s b n1).1 b n2).2 default).ServerName = n2
    rw [hr2, hc2, listGetD_append_len _ [] _ default]

/-- Witness for C6 on a one-cell store. -/
theorem copyTLSConfig_no_shared_mutation_witness :
    readCell (copyTLSConfigSt (copyTLSConfigSt ⟨[⟨[], "", false, false⟩]⟩ ⟨0⟩ "node-a").1 ⟨0⟩ "node-b").1 0 =
        readCell ⟨[⟨[], "", false, false⟩]⟩ 0
    ∧ (copyTLSConfigSt ⟨[⟨[], "", false, false⟩]⟩ ⟨0⟩ "node-a").2 ≠
        (copyTLSConfigSt (copyTLSConfigSt ⟨[⟨[], "", false, false⟩]⟩ ⟨0⟩ "node-a").1 ⟨0⟩ "node-b").2
    ∧ (readCell (copyTLSConfigSt (copyTLSConfigSt ⟨[⟨[], "", false, false⟩]⟩ ⟨0⟩ "node-a").1 ⟨0⟩ "node-b").1
        (copyTLSConfigSt ⟨[⟨[], "", false, false⟩]⟩ ⟨0⟩ "node-a").2).ServerName = "node-a"
    ∧ (readCell (copyTLSConfigSt (copyTLSConfigSt ⟨[⟨[], "", false, false⟩]⟩ ⟨0⟩ "node-a").1 ⟨0⟩ "node-b").1
        (copyTLSConfigSt (copyTLSConfigSt ⟨[⟨[], "", false, false⟩]⟩ ⟨0⟩ "node-a").1 ⟨0⟩ "node-b").2).ServerName = "node-b" :=
  copyTLSConfig_no_shared_mutation ⟨[⟨[], "", false, false⟩]⟩ ⟨0⟩ "node-a" "node-b" (by decide)

/-! ## Injectivity of the UUID string form, and key distinctness -/

lemma hexVal_hexDigit : ∀ d, d < 16 → hexVal (hexDigit d) = some d := by decide

lemma readHexByte_round (b : Nat) (hb : b < 256) (cs : List Char) :
    readHexByte (byteHexChars b ++ cs) = some (b, cs) := by
  have h1 : b / 16 % 16 < 16 := Nat.mod_lt _ (by norm_num)
  have h2 : b % 16 < 16 := Nat.mod_lt _ (by norm_num)
  simp only [byteHexChars, List.cons_append, List.nil_append, readHexByte,
    hexVal_hexDigit _ h1, hexVal_hexDigit _ h2]
  have : b / 16 % 16 * 16 + b % 16 = b := by omega
  rw [this]

lemma readHexBytes_round (bs : List Nat) (h : ∀ b ∈ bs, b < 256) (cs : List Char) :
    readHexBytes bs.length (bytesHexChars bs ++ cs) = some (bs, cs) := by
  induction bs with
  | nil => simp [bytesHexChars, readHexBytes]
  | cons b rest ih =>
    have hb : b < 256 := h b (by simp)
    have h' : ∀ x ∈ rest, x < 256 := fun x hx => h x (by simp [hx])
    have hstream : bytesHexChars (b :: rest) ++ cs =
        byteHexChars b ++ (bytesHexChars rest ++ cs) := by
      simp [bytesHexChars, List.append_assoc]
    simp only [List.length_cons, readHexBytes, hstream, readHexByte_round b hb, ih h']

lemma readUuidChars_round {u : List Nat} (hlen : u.length = 16)
    (hb : ∀ b ∈ u, b < 256) : readUuidChars (uuidChars u) = some u := by
  have m1 : ∀ b ∈ u.take 4, b < 256 := fun b h => hb b (List.take_subset _ _ h)
  have m2 : ∀ b ∈ (u.drop 4).take 2, b < 256 := fun b h =>
    hb b (List.drop_subset _ _ (List.take_subset _ _ h))
  have m3 : ∀ b ∈ (u.drop 6).take 2, b < 256 := fun b h =>
    hb b (List.drop_subset _ _ (List.take_subset _ _ h))
  have m4 : ∀ b ∈ (u.drop 8).take 2, b < 256 := fun b h =>
    hb b (List.drop_subset _ _ (List.take_subset _ _ h))
  have m5 : ∀ b ∈ u.drop 10, b < 256 := fun b h => hb b (List.drop_subset _ _ h)
  have t1 : (u.take 4).length = 4 := by simp [hlen]
  have t2 : ((u.drop 4).take 2).length = 2 := by simp [hlen]
  have t3 : ((u.drop 6).take 2).length = 2 := by simp [hlen]
  have t4 : ((u.drop 8).take 2).length = 2 := by simp [hlen]
  have t5 : (u.drop 10).length = 6 := by simp [hlen]
  have r1 := readHexBytes_round (u.take 4) m1
  rw [t1] at r1
  have r2 := readHexBytes_round ((u.drop 4).take 2) m2
  rw [t2] at r2
  have r3 := readHexBytes_round ((u.drop 6).take 2) m3
  rw [t3] at r3
  have r4 := readHexBytes_round ((u.drop 8).take 2) m4
  rw [t4] at r4
  have r5 : readHexBytes 6 (bytesHexChars (u.drop 10)) = some (u.drop 10, []) := by
    have := readHexBytes_round (u.drop 10) m5 []
    rwa [t5, List.append_nil] at this
  have h0 : u.take 4 ++ u.drop 4 = u := List.take_append_drop 4 u
  have h1 : (u.drop 4).take 2 ++ u.drop 6 = u.drop 4 := by
    have := List.take_append_drop 2 (u.drop 4)
    rwa [List.drop_drop, show 2 + 4 = 6 from rfl] at this
  have h2 : (u.drop 6).take 2 ++ u.drop 8 = u.drop 6 := by
    have := List.take_append_drop 2 (u.drop 6)
    rwa [List.drop_drop, show 2 + 6 = 8 from rfl] at this
  have h3 : (u.drop 8).take 2 ++ u.drop 10 = u.drop 8 := by
    have := List.take_append_drop 2 (u.drop 8)
    rwa [List.drop_drop, show 2 + 8 = 10 from rfl] at this
  simp only [readUuidChars, uuidChars, r1, readDash, r2, r3, r4, r5]
  simp only [if_true]
  rw [List.append_assoc, List.append_assoc, List.append_assoc]
  rw [h3, h2, h1, h0]

lemma stringData_append (s t : String) : (s ++ t).data = s.data ++ t.data := rfl

lemma stringExt {s t : String} (h : s.data = t.data) : s = t := by
  cases s
  cases t
  exact congrArg String.mk h

lemma uuidString_inj {u1 u2 : List Nat} (h1 : u1.length = 16) (h2 : u2.length = 16)
    (hb1 : ∀ b ∈ u1, b < 256) (hb2 : ∀ b ∈ u2, b < 256)
    (heq : uuidString u1 = uuidString u2) : u1 = u2 := by
  have hc : uuidChars u1 = uuidChars u2 := congrArg String.data heq
  have r1 := readUuidChars_round h1 hb1
  rw [hc, readUuidChars_round h2 hb2] at r1
  exact (Option.some.inj r1).symm

/-- Claim C5: two rows whose `host_id` values are distinct (well-formed
sixteen-byte identifiers) produce cloud endpoints with equal `Addr()`
but distinct `Key()` — identity keys never collide when node identities
differ. -/
theorem astra_keys_distinct (a : astraResolver) (r1 r2 : Row)
    (u1 u2 : List Nat) (e1 e2 : Endpoint)
    (hrow1 : r1.ByName "host_id" = .ok (.uuid u1))
    (hrow2 : r2.ByName "host_id" = .ok (.uuid u2))
    (hlen1 : u1.length = 16) (hlen2 : u2.length = 16)
    (hb1 : ∀ b ∈ u1, b < 256) (hb2 : ∀ b ∈ u2, b < 256)
    (hne : u1 ≠ u2)
    (hc1 : a.Create r1 = .ok e1) (hc2 : a.Create r2 = .ok e2) :
    e1.Addr = e2.Addr ∧ e1.Key ≠ e2.Key := by
  simp only [astraResolver.Create, hrow1] at hc1
  cases Except.ok.inj hc1
  simp only [astraResolver.Create, hrow2] at hc2
  cases Except.ok.inj hc2
  refine ⟨rfl, ?_⟩
  intro hkey
  apply hne
  apply uuidString_inj hlen1 hlen2 hb1 hb2
  simp only [Endpoint.Key] at hkey
  have hdata := congrArg String.data hkey
  rw [stringData_append, stringData_append, stringData_append, stringData_append]
    at hdata
  exact stringExt (List.append_cancel_left hdata)

/-- Witness for C5: two concrete rows with distinct `host_id` values. -/
theorem astra_keys_distinct_witness :
    (Endpoint.astra "sni:9042"
      (copyTLSConfig ⟨"db.example.com", 30443, ⟨[], "", false, false⟩⟩
        (uuidString [0, 0, 0, 0, 0, 0, 0, 0, 0, 0, 0, 0, 0, 0, 0, 1]))).Addr =
    (Endpoint.astra "sni:9042"
      (copyTLSConfig ⟨"db.example.com", 30443, ⟨[], "", false, false⟩⟩
        (uuidString [0, 0, 0, 0, 0, 0, 0, 0, 0, 0, 0, 0, 0, 0, 0, 2]))).Addr ∧
    (Endpoint.astra "sni:9042"
      (copyTLSConfig ⟨"db.example.com", 30443, ⟨[], "", false, false⟩⟩
        (uuidString [0, 0, 0, 0, 0, 0, 0, 0, 0, 0, 0, 0, 0, 0, 0, 1]))).Key ≠
    (Endpoint.astra "sni:9042"
      (copyTLSConfig ⟨"db.example.com", 30443, ⟨[], "", false, false⟩⟩
        (uuidString [0, 0, 0, 0, 0, 0, 0, 0, 0, 0, 0, 0, 0, 0, 0, 2]))).Key :=
  astra_keys_distinct
    ⟨[], "sni:9042", ⟨"db.example.com", 30443, ⟨[], "", false, false⟩⟩⟩
    (Row.mk (NewResultSet ⟨⟨[⟨"host_id", .uuid⟩]⟩,
        [[some [0, 0, 0, 0, 0, 0, 0, 0, 0, 0, 0, 0, 0, 0, 0, 1]]]⟩ 4)
      [some [0, 0, 0, 0, 0, 0, 0, 0, 0, 0, 0, 0, 0, 0, 0, 1]])
    (Row.mk (NewResultSet ⟨⟨[⟨"host_id", .uuid⟩]⟩,
        [[some [0, 0, 0, 0, 0, 0, 0, 0, 0, 0, 0, 0, 0, 0, 0, 2]]]⟩ 4)
      [some [0, 0, 0, 0, 0, 0, 0, 0, 0, 0, 0, 0, 0, 0, 0, 2]])
    [0, 0, 0, 0, 0, 0, 0, 0, 0, 0, 0, 0, 0, 0, 0, 1]
    [0, 0, 0, 0, 0, 0, 0, 0, 0, 0, 0, 0, 0, 0, 0, 2]
    (Endpoint.astra "sni:9042"
      (copyTLSConfig ⟨"db.example.com", 30443, ⟨[], "", false, false⟩⟩
        (uuidString [0, 0, 0, 0, 0, 0, 0, 0, 0, 0, 0, 0, 0, 0, 0, 1])))
    (Endpoint.astra "sni:9042"
      (copyTLSConfig ⟨"db.example.com", 30443, ⟨[], "", false, false⟩⟩
        (uuidString [0, 0, 0, 0, 0, 0, 0, 0, 0, 0, 0, 0, 0, 0, 0, 2])))
    (by decide) (by decide) (by decide) (by decide) (by decide) (by decide)
    (by decide) (by decide) (by decide)

end CqlProxy
